import Mathlib

/-!
Verification of the slot-availability and booking-allocation core of the
JakoCrudApp repository, shallowly embedded from
`src/app/services/appointments.service.ts` and `scripts/seed-slots.ts`.

The Firestore document store is modelled as association lists keyed by
document id.  The Firestore primitives used by the service are modelled
after their documented semantics:

* `arrayRemove x` removes every instance of `x` from an array field;
* `arrayUnion x` appends `x` to an array field unless it is already present;
* `transaction.update` on a document that does not exist aborts the
  transaction (Firestore NOT_FOUND); `transaction.set` on a fresh document
  reference creates it;
* an unordered collection query (`getDocs` with no `orderBy`) returns the
  documents in ascending order of document id.

Server-assigned timestamps (`createdAt`, `cancelledAt`) are opaque values no
claim mentions; they are omitted from the embedded records.  Firestore's
random fresh document ids are modelled by a counter `nextApptId` producing
pairwise distinct ids.
-/

namespace JakoCrud

/-- A document of the `dates` collection (interface `DateDoc` in the source):
one record per bookable calendar date, with the time-slot ids still
available on that date. -/
structure DateDoc where
  dateId : String
  date : String
  displayDate : String
  availableTimeIds : List String
deriving Repr, DecidableEq

/-- A document of the `times` collection (interface `TimeDoc` in the source):
one record per catalog time slot. `period` is the string "AM" or "PM". -/
structure TimeDoc where
  timeId : String
  time : String
  hour : Nat
  minute : Nat
  period : String
deriving Repr, DecidableEq

/-- The status field of an appointment: 'confirmed' | 'cancelled'. -/
inductive ApptStatus where
  | confirmed
  | cancelled
deriving Repr, DecidableEq

/-- A document of the `appointments` collection (interface `Appointment` in
the source).  The server timestamps `createdAt` and `cancelledAt` are
omitted (no claim mentions them). -/
structure Appointment where
  appointmentId : String
  dateId : String
  timeId : String
  userId : String
  date : String
  time : String
  status : ApptStatus
deriving Repr, DecidableEq

/-- The Firestore database as the service sees it: the three collections,
each an association list from document id to document. -/
structure Firestore where
  dates : List (String × DateDoc)
  times : List (String × TimeDoc)
  appointments : List (String × Appointment)
deriving Repr, DecidableEq

/-- Reading a document by id: the first entry with the given key, as
`getDoc` / `transaction.get` return it. -/
def fsGet {α : Type} (l : List (String × α)) (k : String) : Option α :=
  (l.find? (fun p => p.1 == k)).map (fun p => p.2)

/-- Running `transaction.update` on the document with id `k`: every entry
with that key is updated in place (keys are unique in an actual store). -/
def fsUpdate {α : Type} (l : List (String × α)) (k : String) (f : α → α) :
    List (String × α) :=
  l.map (fun p => if p.1 == k then (p.1, f p.2) else p)

/-- Firestore `arrayRemove x`: removes all instances of `x`. -/
def arrayRemove (l : List String) (x : String) : List String :=
  l.filter (fun y => !(y == x))

/-- Firestore `arrayUnion x`: appends `x` unless it is already an element. -/
def arrayUnion (l : List String) (x : String) : List String :=
  if x ∈ l then l else l ++ [x]

/-- One entry of the service's `datesCache` map: the cached `DateDoc`
together with the `timestamp` at which it was fetched. -/
abbrev DateCache : Type := List (String × DateDoc × Nat)

/-- Reading the `datesCache` map (`this.datesCache.get(dateId)`). -/
def cacheGet (c : DateCache) (k : String) : Option (DateDoc × Nat) :=
  (c.find? (fun e => e.1 == k)).map (fun e => e.2)

/-- Writing the `datesCache` map (`this.datesCache.set(dateId, v)`): replaces
the value at an existing key in place, otherwise appends. -/
def cacheSet (c : DateCache) (k : String) (v : DateDoc × Nat) : DateCache :=
  if c.any (fun e => e.1 == k) then
    c.map (fun e => if e.1 == k then (k, v) else e)
  else
    c ++ [(k, v)]

/-- The mutable state of `AppointmentsService`: the backing store, the two
in-memory caches, and the counter modelling fresh appointment-document ids. -/
structure ServiceState where
  store : Firestore
  datesCache : DateCache
  timesCache : List TimeDoc
  nextApptId : Nat
deriving DecidableEq

/-- The id of the fresh appointment document created by the n-th booking
(Firestore's `doc(collection(...))` random id, modelled as a counter so that
distinct bookings get distinct ids). -/
def freshApptId (n : Nat) : String :=
  "appt-" ++ toString n

/-- CACHE_DURATION = 5 * 60 * 1000 milliseconds. -/
def CACHE_DURATION : Nat := 5 * 60 * 1000

/-- The result record of `bookAppointment`:
`{ success: boolean; appointmentId?: string; error?: string }`. -/
structure BookResult where
  success : Bool
  appointmentId : Option String
  error : Option String
deriving Repr, DecidableEq

/-- The result record of `cancelAppointment`:
`{ success: boolean; error?: string }`. -/
structure CancelResult where
  success : Bool
  error : Option String
deriving Repr, DecidableEq

/-- Method `clearDateCache(dateId?)` of the service: with an id, deletes that
entry; with none, clears the whole cache. -/
def clearDateCache (c : DateCache) (dateId : Option String) : DateCache :=
  match dateId with
  | some d => c.filter (fun e => !(e.1 == d))
  | none => []

/-- Method `bookAppointment(dateId, timeId)` of the service.  `currentUser`
is the uid `authService.waitForAuthInit()` resolves to (`none` when no user
is authenticated).  Inside the transaction the service checks, in order:
the date document exists; `timeId` is still in `availableTimeIds`; the time
document exists.  On success it removes `timeId` from the date's
`availableTimeIds` (arrayRemove), creates the appointment document with
status 'confirmed', and after the transaction commits it clears the dates
cache entry for `dateId`.  On any thrown error the transaction leaves the
store unchanged and the error message is returned. -/
def bookAppointment (s : ServiceState) (currentUser : Option String)
    (dateId timeId : String) : BookResult × ServiceState :=
  match currentUser with
  | none =>
    ({ success := false, appointmentId := none,
       error := some "User not authenticated" }, s)
  | some uid =>
    match fsGet s.store.dates dateId with
    | none =>
      ({ success := false, appointmentId := none,
         error := some "Date not found" }, s)
    | some dateData =>
      if timeId ∈ dateData.availableTimeIds then
        match fsGet s.store.times timeId with
        | none =>
          ({ success := false, appointmentId := none,
             error := some "Time not found" }, s)
        | some timeData =>
          let appointmentId := freshApptId s.nextApptId
          let appt : Appointment :=
            { appointmentId := appointmentId
              dateId := dateId
              timeId := timeId
              userId := uid
              date := dateData.date
              time := timeData.time
              status := ApptStatus.confirmed }
          ({ success := true, appointmentId := some appointmentId,
             error := none },
           { store :=
               { dates := fsUpdate s.store.dates dateId (fun d =>
                   { d with availableTimeIds :=
                       arrayRemove d.availableTimeIds timeId })
                 times := s.store.times
                 appointments := (appointmentId, appt) :: s.store.appointments }
             datesCache := clearDateCache s.datesCache (some dateId)
             timesCache := s.timesCache
             nextApptId := s.nextApptId + 1 })
      else
        ({ success := false, appointmentId := none,
           error := some "Time slot is no longer available" }, s)

/-- Method `cancelAppointment(appointmentId)` of the service.  Inside the
transaction it checks that the appointment document exists and that it
belongs to the current user; it does NOT inspect `status`.  It then runs
`transaction.update` on the date document (arrayUnion of the appointment's
`timeId` back into `availableTimeIds`) — which aborts with NOT_FOUND if that
date document does not exist — and sets the appointment's status to
'cancelled'.  The dates cache is not touched on any path. -/
def cancelAppointment (s : ServiceState) (currentUser : Option String)
    (appointmentId : String) : CancelResult × ServiceState :=
  match currentUser with
  | none =>
    ({ success := false, error := some "User not authenticated" }, s)
  | some uid =>
    match fsGet s.store.appointments appointmentId with
    | none =>
      ({ success := false, error := some "Appointment not found" }, s)
    | some appointment =>
      if appointment.userId = uid then
        match fsGet s.store.dates appointment.dateId with
        | none =>
          ({ success := false, error := some "No document to update" }, s)
        | some _ =>
          ({ success := true, error := none },
           { store :=
               { dates := fsUpdate s.store.dates appointment.dateId (fun d =>
                   { d with availableTimeIds :=
                       arrayUnion d.availableTimeIds appointment.timeId })
                 times := s.store.times
                 appointments :=
                   fsUpdate s.store.appointments appointmentId (fun a =>
                     { a with status := ApptStatus.cancelled }) }
             datesCache := s.datesCache
             timesCache := s.timesCache
             nextApptId := s.nextApptId })
      else
        ({ success := false, error := some "Unauthorized" }, s)

/-- Lexicographic comparison of character lists by code point (for ASCII
document ids this is exactly Firestore's UTF-8 byte order on ids). -/
def charsLe : List Char → List Char → Bool
  | [], _ => true
  | _ :: _, [] => false
  | a :: as, b :: bs => if a = b then charsLe as bs else decide (a < b)

/-- Lexicographic order on document ids. -/
def docIdLe (a b : String) : Bool :=
  charsLe a.data b.data

/-- An unordered Firestore collection query (`getDocs` with no `orderBy`)
returns the documents in ascending order of document id (Firestore's
documented default ordering). -/
def firestoreDocs {α : Type} (l : List (String × α)) : List (String × α) :=
  List.insertionSort (fun a b => docIdLe a.1 b.1 = true) l

/-- Method `getDateAvailability(dateId)` of the service, at current clock
value `now` (`Date.now()`).  Serves the cached copy when an entry exists and
`now - cached.timestamp < CACHE_DURATION`; otherwise reads the date document
from Firestore, caches it with timestamp `now` when it exists, and returns
`null` (here `none`) without caching when it does not. -/
def getDateAvailability (s : ServiceState) (now : Nat) (dateId : String) :
    Option DateDoc × ServiceState :=
  match cacheGet s.datesCache dateId with
  | some cached =>
    if now - cached.2 < CACHE_DURATION then
      (some cached.1, s)
    else
      match fsGet s.store.dates dateId with
      | none => (none, s)
      | some data =>
        (some data, { s with datesCache := cacheSet s.datesCache dateId (data, now) })
  | none =>
    match fsGet s.store.dates dateId with
    | none => (none, s)
    | some data =>
      (some data, { s with datesCache := cacheSet s.datesCache dateId (data, now) })

/-- Method `getAllTimes()` of the service: returns the `timesCache` values
when the cache is non-empty, otherwise queries the whole `times` collection
(unordered, so in document-id order), fills the cache in that order and
returns the list.  The cache is modelled as the list of map values in
insertion order (the seeded catalog has pairwise distinct `timeId`s). -/
def getAllTimes (s : ServiceState) : List TimeDoc × ServiceState :=
  if s.timesCache.length > 0 then
    (s.timesCache, s)
  else
    let times := (firestoreDocs s.store.times).map (fun p => p.2)
    (times, { s with timesCache := times })

/-- Method `getUserAppointments()` of the service: `none` (no authenticated
user) yields the empty list; otherwise the `appointments` collection is
queried with `where('userId','==',uid)`, the results are filtered to
status 'confirmed' and sorted ascending by the `date` string (JavaScript
`sort` with the `localeCompare` comparator is a stable comparison sort,
modelled by insertion sort). -/
def getUserAppointments (s : ServiceState) (currentUser : Option String) :
    List Appointment :=
  match currentUser with
  | none => []
  | some uid =>
    let appointments :=
      ((firestoreDocs s.store.appointments).map (fun p => p.2)).filter
        (fun a => a.userId == uid)
    let confirmedAppointments :=
      appointments.filter (fun a => a.status == ApptStatus.confirmed)
    List.insertionSort (fun a b => a.date ≤ b.date) confirmedAppointments

/-- Helper of `scripts/seed-slots.ts`: `createTimeId("8:00 AM") = "8-00_AM"`
(replace every ':' with '-' and every ' ' with '_'). -/
def createTimeId (time : String) : String :=
  String.mk (time.data.map
    (fun c => if c = ':' then '-' else if c = ' ' then '_' else c))

/-- One entry of the seeded `times` collection: the seed script writes the
document `{ timeId, ...timeData }` at id `createTimeId(time)`. -/
def mkSeedTime (time : String) (hour minute : Nat) (period : String) : TimeDoc :=
  { timeId := createTimeId time, time := time, hour := hour, minute := minute,
    period := period }

/-- The TIME_SLOTS table of `scripts/seed-slots.ts`. -/
def TIME_SLOTS : List TimeDoc :=
  [ mkSeedTime "8:00 AM" 8 0 "AM"
  , mkSeedTime "8:30 AM" 8 30 "AM"
  , mkSeedTime "9:00 AM" 9 0 "AM"
  , mkSeedTime "9:30 AM" 9 30 "AM"
  , mkSeedTime "10:00 AM" 10 0 "AM"
  , mkSeedTime "10:30 AM" 10 30 "AM"
  , mkSeedTime "11:00 AM" 11 0 "AM"
  , mkSeedTime "11:30 AM" 11 30 "AM"
  , mkSeedTime "12:00 PM" 12 0 "PM"
  , mkSeedTime "12:30 PM" 12 30 "PM"
  , mkSeedTime "1:00 PM" 1 0 "PM"
  , mkSeedTime "1:30 PM" 1 30 "PM"
  , mkSeedTime "2:00 PM" 2 0 "PM"
  , mkSeedTime "2:30 PM" 2 30 "PM"
  , mkSeedTime "3:00 PM" 3 0 "PM"
  , mkSeedTime "3:30 PM" 3 30 "PM" ]

/-- The `times` collection as `seedTimes()` writes it. -/
def seededTimesCollection : List (String × TimeDoc) :=
  TIME_SLOTS.map (fun t => (t.timeId, t))

/-- The 24-hour hour of a catalog slot (12 AM is 0, 12 PM is 12). -/
def hour24 (t : TimeDoc) : Nat :=
  if t.period == "PM" && !(t.hour == 12) then t.hour + 12
  else if t.period == "AM" && t.hour == 12 then 0
  else t.hour

/-- Time of day of a catalog slot in minutes since midnight (the claim's
"by 24-hour hour then minute" measure). -/
def timeOfDay (t : TimeDoc) : Nat :=
  hour24 t * 60 + t.minute

/-- A freshly seeded state: no appointments exist, the caches are empty and
no appointment document id has been handed out yet. -/
def Seeded (s : ServiceState) : Prop :=
  s.store.appointments = [] ∧ s.datesCache = [] ∧ s.timesCache = [] ∧
    s.nextApptId = 0

instance (s : ServiceState) : Decidable (Seeded s) := by
  unfold Seeded
  infer_instance

/-- The states of the system reachable by any sequence of `book` and
`cancel` operations, each one atomic step, from a seeded state. -/
inductive Reachable : ServiceState → Prop where
  | seed (s : ServiceState) : Seeded s → Reachable s
  | book (s : ServiceState) (u : Option String) (dateId timeId : String) :
      Reachable s → Reachable (bookAppointment s u dateId timeId).2
  | cancel (s : ServiceState) (u : Option String) (appointmentId : String) :
      Reachable s → Reachable (cancelAppointment s u appointmentId).2

/-- A seeded date record for 2025-10-01 with the single slot 8:00 AM
available (spec Scenario-style data). -/
def demoDate : DateDoc :=
  { dateId := "2025-10-01", date := "2025-10-01",
    displayDate := "October 1, 2025", availableTimeIds := ["8-00_AM"] }

/-- A seeded state: the full time catalog, the one demo date, no
appointments. -/
def demoSeed : ServiceState :=
  { store :=
      { dates := [("2025-10-01", demoDate)]
        times := seededTimesCollection
        appointments := [] }
    datesCache := []
    timesCache := []
    nextApptId := 0 }

/-- Step 1: userA books the 8:00 AM slot of 2025-10-01 (succeeds, creating
appointment "appt-0" and emptying the date's availability). -/
def sA1 : ServiceState :=
  (bookAppointment demoSeed (some "userA") "2025-10-01" "8-00_AM").2

/-- Step 2: userA cancels "appt-0" (succeeds, the slot returns). -/
def sA2 : ServiceState :=
  (cancelAppointment sA1 (some "userA") "appt-0").2

/-- Step 3: userA books the same slot again (succeeds, creating "appt-1"). -/
def sA3 : ServiceState :=
  (bookAppointment sA2 (some "userA") "2025-10-01" "8-00_AM").2

/-- Step 4: userA cancels "appt-0" a second time.  The code has no status
guard, so the cancel succeeds again and puts "8-00_AM" back into the date's
availability even though "appt-1" still holds it. -/
def sA4 : ServiceState :=
  (cancelAppointment sA3 (some "userA") "appt-0").2

/-- Step 5: userA books the same slot a third time (succeeds, creating
"appt-2") while "appt-1" is still confirmed. -/
def sA5 : ServiceState :=
  (bookAppointment sA4 (some "userA") "2025-10-01" "8-00_AM").2

/-- The confirmed appointments referencing a given (dateId, timeId) pair. -/
def confirmedFor (s : ServiceState) (dateId timeId : String) : List Appointment :=
  (s.store.appointments.map (fun p => p.2)).filter
    (fun a => a.dateId == dateId && a.timeId == timeId &&
      a.status == ApptStatus.confirmed)

/-- C1: the mutual-exclusion invariant fails on the code.  The five-step
trace book, cancel, book, cancel-the-same-appointment-again (the code has no
status guard), book — all steps by the owning user — reaches a state, from a
seeded state with no appointments, in which two appointments with status
'confirmed' reference the same (dateId, timeSlotId) pair, and in which the
fifth step was a second successful book of a slot whose earlier booking
("appt-1") was still confirmed. -/
theorem C1_double_booking_reachable :
    Reachable sA5 ∧
      (bookAppointment sA4 (some "userA") "2025-10-01" "8-00_AM").1.success
        = true ∧
      (confirmedFor sA4 "2025-10-01" "8-00_AM").length = 1 ∧
      (confirmedFor sA5 "2025-10-01" "8-00_AM").length = 2 := by
  refine ⟨?_, by decide, by decide, by decide⟩
  show Reachable (bookAppointment sA4 (some "userA") "2025-10-01" "8-00_AM").2
  refine Reachable.book _ _ _ _ ?_
  show Reachable (cancelAppointment sA3 (some "userA") "appt-0").2
  refine Reachable.cancel _ _ _ ?_
  show Reachable (bookAppointment sA2 (some "userA") "2025-10-01" "8-00_AM").2
  refine Reachable.book _ _ _ _ ?_
  show Reachable (cancelAppointment sA1 (some "userA") "appt-0").2
  refine Reachable.cancel _ _ _ ?_
  show Reachable (bookAppointment demoSeed (some "userA") "2025-10-01" "8-00_AM").2
  exact Reachable.book _ _ _ _ (Reachable.seed _ (by decide))

/-- C3: cancelling the same appointment twice with the owner's identity does
NOT fail the second time: the code never inspects `status`, so both calls
return success and no AlreadyCancelled-style error exists on any code
path.  (The second cancel happens to leave the store unchanged, since the
slot is already back in `availableTimeIds` and the status is already
'cancelled'.) -/
theorem C3_second_cancel_succeeds :
    (cancelAppointment sA1 (some "userA") "appt-0").1
        = { success := true, error := none } ∧
      (cancelAppointment sA2 (some "userA") "appt-0").1
        = { success := true, error := none } ∧
      (cancelAppointment sA2 (some "userA") "appt-0").2 = sA2 := by
  refine ⟨by decide, by decide, by decide⟩

/-- C8: cancelling an existing appointment under a caller identity different
from the appointment's owner fails with 'Unauthorized' and returns the
state unchanged: the transaction throws before any write, so the
appointment's status and every date's `availableTimeIds` (and the caches)
are exactly as before. -/
theorem C8_cancel_wrong_owner_unauthorized (s : ServiceState)
    (uid appointmentId : String) (appt : Appointment)
    (hfind : fsGet s.store.appointments appointmentId = some appt)
    (howner : appt.userId ≠ uid) :
    cancelAppointment s (some uid) appointmentId =
      ({ success := false, error := some "Unauthorized" }, s) := by
  unfold cancelAppointment
  rw [hfind]
  simp [howner]

/-- C8 witness: in the state reached by userA's booking, userB's attempt to
cancel "appt-0" returns 'Unauthorized' and leaves the state untouched. -/
theorem C8_cancel_wrong_owner_unauthorized_witness :
    cancelAppointment sA1 (some "userB") "appt-0" =
      ({ success := false, error := some "Unauthorized" }, sA1) :=
  C8_cancel_wrong_owner_unauthorized sA1 "userB" "appt-0"
    { appointmentId := "appt-0", dateId := "2025-10-01", timeId := "8-00_AM",
      userId := "userA", date := "2025-10-01", time := "8:00 AM",
      status := ApptStatus.confirmed }
    (by decide) (by decide)

/-- C9: with no authenticated caller, both `bookAppointment` and
`cancelAppointment` return `{ success: false, error: 'User not
authenticated' }` before starting any transaction, leaving the store, the
ledger and the caches exactly unchanged. -/
theorem C9_unauthenticated_is_noop (s : ServiceState)
    (dateId timeId appointmentId : String) :
    bookAppointment s none dateId timeId =
      ({ success := false, appointmentId := none,
         error := some "User not authenticated" }, s) ∧
    cancelAppointment s none appointmentId =
      ({ success := false, error := some "User not authenticated" }, s) :=
  ⟨rfl, rfl⟩

/-- Deleting a key from the dates cache really removes its entry. -/
theorem cacheGet_clearDateCache (c : DateCache) (d : String) :
    cacheGet (clearDateCache c (some d)) d = none := by
  have h : (c.filter (fun e => !(e.1 == d))).find? (fun e => e.1 == d) = none := by
    rw [List.find?_eq_none]
    intro x hx
    have hcond := (List.mem_filter.mp hx).2
    simp only [Bool.not_eq_true', beq_eq_false_iff_ne, ne_eq] at hcond
    simp [hcond]
  simp [clearDateCache, cacheGet, h]

/-- State after a cache-warming read in the post-booking state `sA1`: the
dates cache now holds the post-booking availability (empty) of 2025-10-01,
fetched at time 0. -/
def sB2 : ServiceState :=
  (getDateAvailability sA1 0 "2025-10-01").2

/-- State after userA then cancels "appt-0" in `sB2`: the cancel commits
(the slot is back in the store) but the cache entry survives. -/
def sB3 : ServiceState :=
  (cancelAppointment sB2 (some "userA") "appt-0").2

/-- C2 counterexample: a successful cancel does not invalidate the cache
entry of the appointment's date.  In `sB2` the cache holds the pre-cancel
copy (no slot available, fetched at 0); the cancel succeeds and commits
"8-00_AM" back into the store, yet the very next cache-backed read (at time
1000, well inside the TTL) still returns the pre-cancel cached copy with no
available slot, not the newly committed state. -/
theorem C2_cancel_leaves_stale_cache :
    (cancelAppointment sB2 (some "userA") "appt-0").1.success = true ∧
      cacheGet sB3.datesCache "2025-10-01" = some
        ({ demoDate with availableTimeIds := [] }, 0) ∧
      ((fsGet sB3.store.dates "2025-10-01").map DateDoc.availableTimeIds)
        = some ["8-00_AM"] ∧
      ((getDateAvailability sB3 1000 "2025-10-01").1.map
          DateDoc.availableTimeIds) = some [] := by
  refine ⟨by decide, by decide, by decide, by decide⟩

/-- C2 amended: only booking invalidates the cache.  After every successful
book the cache entry for the booked date is removed synchronously with the
commit, so the next read for that date is a live read; a cancel, successful
or not, never touches the dates cache at all. -/
theorem C2_book_invalidates_cancel_does_not :
    (∀ s u dateId timeId,
      (bookAppointment s u dateId timeId).1.success = true →
        cacheGet (bookAppointment s u dateId timeId).2.datesCache dateId
          = none) ∧
    (∀ s u appointmentId,
      (cancelAppointment s u appointmentId).2.datesCache = s.datesCache) := by
  constructor
  · intro s u dateId timeId h
    unfold bookAppointment at h ⊢
    rcases u with _ | uid
    · simp at h
    · rcases hd : fsGet s.store.dates dateId with _ | dd
      · rw [hd] at h
        simp at h
      · rw [hd] at h
        dsimp only at h ⊢
        by_cases hm : timeId ∈ dd.availableTimeIds
        · rw [if_pos hm] at h ⊢
          rcases ht : fsGet s.store.times timeId with _ | td
          · rw [ht] at h
            simp at h
          · exact cacheGet_clearDateCache _ _
        · rw [if_neg hm] at h
          simp at h
  · intro s u appointmentId
    unfold cancelAppointment
    rcases u with _ | uid
    · rfl
    · rcases hf : fsGet s.store.appointments appointmentId with _ | appt
      · rfl
      · dsimp only
        by_cases ho : appt.userId = uid
        · rw [if_pos ho]
          rcases hd : fsGet s.store.dates appt.dateId with _ | dd
          · rfl
          · rfl
        · rw [if_neg ho]

/-- Reading a key just written at the front of a collection finds it. -/
theorem fsGet_cons_self {α : Type} (k : String) (v : α) (l : List (String × α)) :
    fsGet ((k, v) :: l) k = some v := by
  simp [fsGet, List.find?_cons]

/-- Reading the key an update was applied at sees the updated document. -/
theorem fsGet_fsUpdate_self {α : Type} (l : List (String × α)) (k : String)
    (f : α → α) : fsGet (fsUpdate l k f) k = (fsGet l k).map f := by
  induction l with
  | nil => rfl
  | cons p rest ih =>
    rcases p with ⟨k1, v1⟩
    unfold fsUpdate at *
    unfold fsGet at *
    simp only [List.map_cons]
    by_cases h : (k1 == k) = true
    · rw [if_pos h]
      rw [List.find?_cons_of_pos (p := fun q : String × α => q.1 == k) _ h]
      rw [List.find?_cons_of_pos (p := fun q : String × α => q.1 == k) _ h]
      rfl
    · rw [if_neg h]
      rw [List.find?_cons_of_neg (p := fun q : String × α => q.1 == k) _ h]
      rw [List.find?_cons_of_neg (p := fun q : String × α => q.1 == k) _ h]
      exact ih

/-- An element is always a member after `arrayUnion` with it. -/
theorem mem_arrayUnion_self (l : List String) (x : String) :
    x ∈ arrayUnion l x := by
  unfold arrayUnion
  by_cases h : x ∈ l
  · rwa [if_pos h]
  · rw [if_neg h]
    exact List.mem_append_right _ (List.mem_singleton.mpr rfl)

/-- Reduction of `bookAppointment` on its success path: the date exists, the
slot is available and the time is in the catalog. -/
theorem bookAppointment_success_eq (s : ServiceState)
    (uid dateId timeId : String) (dd : DateDoc) (td : TimeDoc)
    (hdate : fsGet s.store.dates dateId = some dd)
    (havail : timeId ∈ dd.availableTimeIds)
    (htime : fsGet s.store.times timeId = some td) :
    bookAppointment s (some uid) dateId timeId =
      ({ success := true, appointmentId := some (freshApptId s.nextApptId),
         error := none },
       { store :=
           { dates := fsUpdate s.store.dates dateId (fun d =>
               { d with availableTimeIds :=
                   arrayRemove d.availableTimeIds timeId })
             times := s.store.times
             appointments := (freshApptId s.nextApptId,
               { appointmentId := freshApptId s.nextApptId, dateId := dateId,
                 timeId := timeId, userId := uid, date := dd.date,
                 time := td.time, status := ApptStatus.confirmed })
               :: s.store.appointments }
         datesCache := clearDateCache s.datesCache (some dateId)
         timesCache := s.timesCache
         nextApptId := s.nextApptId + 1 }) := by
  unfold bookAppointment
  rw [hdate]
  dsimp only
  rw [if_pos havail, htime]

/-- Reduction of `cancelAppointment` on its success path: the appointment
exists, belongs to the caller, and its date document exists. -/
theorem cancelAppointment_success_eq (s : ServiceState)
    (uid appointmentId : String) (appt : Appointment) (dd : DateDoc)
    (hfind : fsGet s.store.appointments appointmentId = some appt)
    (howner : appt.userId = uid)
    (hdate : fsGet s.store.dates appt.dateId = some dd) :
    cancelAppointment s (some uid) appointmentId =
      ({ success := true, error := none },
       { store :=
           { dates := fsUpdate s.store.dates appt.dateId (fun d =>
               { d with availableTimeIds :=
                   arrayUnion d.availableTimeIds appt.timeId })
             times := s.store.times
             appointments := fsUpdate s.store.appointments appointmentId
               (fun a => { a with status := ApptStatus.cancelled }) }
         datesCache := s.datesCache
         timesCache := s.timesCache
         nextApptId := s.nextApptId }) := by
  unfold cancelAppointment
  rw [hfind]
  dsimp only
  rw [if_pos howner, hdate]

/-- C4: round trip.  If `timeSlotId` is available on an existing date and
present in the catalog, then book succeeds (returning the fresh appointment
id), the owner's cancel of that appointment succeeds, immediately after the
cancel the slot is again a member of the date's `availableTimeIds`, and a
second book of the same slot succeeds. -/
theorem C4_book_cancel_book_roundtrip (s : ServiceState)
    (owner dateId timeId : String) (dd : DateDoc) (td : TimeDoc)
    (hdate : fsGet s.store.dates dateId = some dd)
    (havail : timeId ∈ dd.availableTimeIds)
    (htime : fsGet s.store.times timeId = some td) :
    (bookAppointment s (some owner) dateId timeId).1.success = true ∧
    (bookAppointment s (some owner) dateId timeId).1.appointmentId
        = some (freshApptId s.nextApptId) ∧
    (cancelAppointment (bookAppointment s (some owner) dateId timeId).2
        (some owner) (freshApptId s.nextApptId)).1.success = true ∧
    (∃ dd2,
      fsGet (cancelAppointment (bookAppointment s (some owner) dateId timeId).2
          (some owner) (freshApptId s.nextApptId)).2.store.dates dateId
        = some dd2 ∧ timeId ∈ dd2.availableTimeIds) ∧
    (bookAppointment
        (cancelAppointment (bookAppointment s (some owner) dateId timeId).2
          (some owner) (freshApptId s.nextApptId)).2
        (some owner) dateId timeId).1.success = true := by
  have hb := bookAppointment_success_eq s owner dateId timeId dd td hdate
    havail htime
  have hc := cancelAppointment_success_eq
    { store :=
        { dates := fsUpdate s.store.dates dateId (fun d =>
            { d with availableTimeIds := arrayRemove d.availableTimeIds timeId })
          times := s.store.times
          appointments := (freshApptId s.nextApptId,
            { appointmentId := freshApptId s.nextApptId, dateId := dateId,
              timeId := timeId, userId := owner, date := dd.date,
              time := td.time, status := ApptStatus.confirmed })
            :: s.store.appointments }
      datesCache := clearDateCache s.datesCache (some dateId)
      timesCache := s.timesCache
      nextApptId := s.nextApptId + 1 }
    owner (freshApptId s.nextApptId)
    { appointmentId := freshApptId s.nextApptId, dateId := dateId,
      timeId := timeId, userId := owner, date := dd.date,
      time := td.time, status := ApptStatus.confirmed }
    { dateId := dd.dateId, date := dd.date, displayDate := dd.displayDate,
      availableTimeIds := arrayRemove dd.availableTimeIds timeId }
    (fsGet_cons_self _ _ _) rfl
    (by dsimp only; rw [fsGet_fsUpdate_self, hdate]; rfl)
  rw [hb]
  dsimp only
  rw [hc]
  dsimp only
  have hdd2 :
      fsGet (fsUpdate (fsUpdate s.store.dates dateId (fun d =>
          { d with availableTimeIds := arrayRemove d.availableTimeIds timeId }))
          dateId (fun d =>
          { d with availableTimeIds := arrayUnion d.availableTimeIds timeId }))
        dateId = some
          { dateId := dd.dateId, date := dd.date,
            displayDate := dd.displayDate,
            availableTimeIds :=
              arrayUnion (arrayRemove dd.availableTimeIds timeId) timeId } := by
    rw [fsGet_fsUpdate_self, fsGet_fsUpdate_self, hdate]
    rfl
  refine ⟨rfl, rfl, rfl, ⟨_, hdd2, mem_arrayUnion_self _ _⟩, ?_⟩
  have hb2 := bookAppointment_success_eq
    { store :=
        { dates := fsUpdate (fsUpdate s.store.dates dateId (fun d =>
            { d with availableTimeIds := arrayRemove d.availableTimeIds timeId }))
            dateId (fun d =>
            { d with availableTimeIds := arrayUnion d.availableTimeIds timeId })
          times := s.store.times
          appointments := fsUpdate ((freshApptId s.nextApptId,
            ({ appointmentId := freshApptId s.nextApptId, dateId := dateId,
               timeId := timeId, userId := owner, date := dd.date,
               time := td.time, status := ApptStatus.confirmed } : Appointment))
            :: s.store.appointments) (freshApptId s.nextApptId)
            (fun a => { a with status := ApptStatus.cancelled }) }
      datesCache := clearDateCache s.datesCache (some dateId)
      timesCache := s.timesCache
      nextApptId := s.nextApptId + 1 }
    owner dateId timeId
    { dateId := dd.dateId, date := dd.date, displayDate := dd.displayDate,
      availableTimeIds :=
        arrayUnion (arrayRemove dd.availableTimeIds timeId) timeId }
    td hdd2 (mem_arrayUnion_self _ _) htime
  rw [hb2]

/-- C4 witness: the round trip at the seeded demo state, slot 8:00 AM of
2025-10-01, owner userA. -/
theorem C4_book_cancel_book_roundtrip_witness :
    (bookAppointment demoSeed (some "userA") "2025-10-01" "8-00_AM").1.success
        = true ∧
    (bookAppointment demoSeed (some "userA") "2025-10-01"
        "8-00_AM").1.appointmentId = some (freshApptId demoSeed.nextApptId) ∧
    (cancelAppointment
        (bookAppointment demoSeed (some "userA") "2025-10-01" "8-00_AM").2
        (some "userA") (freshApptId demoSeed.nextApptId)).1.success = true ∧
    (∃ dd2,
      fsGet (cancelAppointment
          (bookAppointment demoSeed (some "userA") "2025-10-01" "8-00_AM").2
          (some "userA") (freshApptId demoSeed.nextApptId)).2.store.dates
          "2025-10-01"
        = some dd2 ∧ "8-00_AM" ∈ dd2.availableTimeIds) ∧
    (bookAppointment
        (cancelAppointment
          (bookAppointment demoSeed (some "userA") "2025-10-01" "8-00_AM").2
          (some "userA") (freshApptId demoSeed.nextApptId)).2
        (some "userA") "2025-10-01" "8-00_AM").1.success = true :=
  C4_book_cancel_book_roundtrip demoSeed "userA" "2025-10-01" "8-00_AM"
    demoDate (mkSeedTime "8:00 AM" 8 0 "AM") (by decide) (by decide) (by decide)

/-- A cache entry for `dateId` that exists and is younger than the TTL. -/
def cacheIsFresh (s : ServiceState) (now : Nat) (dateId : String) : Prop :=
  ∃ c, cacheGet s.datesCache dateId = some c ∧ now - c.2 < CACHE_DURATION

/-- A service state over an empty Firestore with cold caches. -/
def emptyService : ServiceState :=
  { store := { dates := [], times := [], appointments := [] },
    datesCache := [], timesCache := [], nextApptId := 0 }

/-- C5 counterexample: with no cache entry (so the claim's "otherwise"
branch applies) and a `dateId` the store has no record for,
`getDateAvailability` returns the live-read result but does NOT store
anything with `fetchedAt = now`: the cache stays empty, falsifying the
claim's unconditional "stores the result with fetchedAt = now" at this
input. -/
theorem C5_missing_date_result_not_cached :
    ¬ ((¬ cacheIsFresh emptyService 0 "2025-10-01") →
        ((getDateAvailability emptyService 0 "2025-10-01").1
            = fsGet emptyService.store.dates "2025-10-01" ∧
         ∃ d, cacheGet
            (getDateAvailability emptyService 0 "2025-10-01").2.datesCache
            "2025-10-01" = some (d, 0))) := by
  intro h
  have hnf : ¬ cacheIsFresh emptyService 0 "2025-10-01" := by
    rintro ⟨c, hc, -⟩
    simp [cacheGet, emptyService] at hc
  obtain ⟨-, d, hd⟩ := h hnf
  simp [getDateAvailability, emptyService, cacheGet, fsGet] at hd

/-- C5 amended: a fresh cache entry (strictly younger than the 5-minute TTL)
is served as is; otherwise (entry absent or at least TTL old, so an entry 5
minutes old or older is never served) a live read happens: a record found in
the store is returned and cached with `fetchedAt = now`, and a `dateId` the
store has no record for yields `none` with the cache left unchanged. -/
theorem C5_cache_ttl_characterization (s : ServiceState) (now : Nat)
    (dateId : String) :
    (∀ c, cacheGet s.datesCache dateId = some c →
        now - c.2 < CACHE_DURATION →
        getDateAvailability s now dateId = (some c.1, s)) ∧
    (¬ cacheIsFresh s now dateId →
        (fsGet s.store.dates dateId = none →
            getDateAvailability s now dateId = (none, s)) ∧
        (∀ data, fsGet s.store.dates dateId = some data →
            getDateAvailability s now dateId =
              (some data,
               { s with
                   datesCache := cacheSet s.datesCache dateId (data, now) }))) := by
  constructor
  · intro c hc hlt
    unfold getDateAvailability
    rw [hc]
    dsimp only
    rw [if_pos hlt]
  · intro hnf
    constructor
    · intro hmiss
      unfold getDateAvailability
      rcases hc : cacheGet s.datesCache dateId with _ | c
      · dsimp only
        rw [hmiss]
      · dsimp only
        rw [if_neg (fun hlt => hnf ⟨c, hc, hlt⟩), hmiss]
    · intro data hdata
      unfold getDateAvailability
      rcases hc : cacheGet s.datesCache dateId with _ | c
      · dsimp only
        rw [hdata]
      · dsimp only
        rw [if_neg (fun hlt => hnf ⟨c, hc, hlt⟩), hdata]

/-- C6 counterexample: a timeSlotId absent from the catalog that is also not
in the date's `availableTimeIds` makes book fail with the SlotUnavailable
message, not the TimeSlotUnknown one: the availability check runs before
the catalog check. -/
theorem C6_catalog_absent_reports_slot_unavailable :
    fsGet demoSeed.store.times "99-99_XX" = none ∧
    (bookAppointment demoSeed (some "userA") "2025-10-01" "99-99_XX").1.error
        = some "Time slot is no longer available" ∧
    ¬ ((bookAppointment demoSeed (some "userA") "2025-10-01"
        "99-99_XX").1.error = some "Time not found") := by
  refine ⟨by decide, by decide, by decide⟩

/-- C6 amended: the three semantic failures are pairwise distinct outcomes,
produced in the check order date-exists, slot-available, time-in-catalog: a
missing date yields 'Date not found'; an existing date with the slot not
available yields 'Time slot is no longer available' (even when the slot is
also absent from the catalog); a catalog-absent timeSlotId yields 'Time not
found' exactly when it is still listed available on the date.  Each failure
leaves the state unchanged. -/
theorem C6_three_distinct_failures (s : ServiceState)
    (uid dateId timeId : String) :
    (fsGet s.store.dates dateId = none →
      bookAppointment s (some uid) dateId timeId =
        ({ success := false, appointmentId := none,
           error := some "Date not found" }, s)) ∧
    (∀ dd, fsGet s.store.dates dateId = some dd →
        timeId ∉ dd.availableTimeIds →
      bookAppointment s (some uid) dateId timeId =
        ({ success := false, appointmentId := none,
           error := some "Time slot is no longer available" }, s)) ∧
    (∀ dd, fsGet s.store.dates dateId = some dd →
        timeId ∈ dd.availableTimeIds → fsGet s.store.times timeId = none →
      bookAppointment s (some uid) dateId timeId =
        ({ success := false, appointmentId := none,
           error := some "Time not found" }, s)) ∧
    ((some "Date not found" : Option String)
        ≠ some "Time slot is no longer available" ∧
     (some "Date not found" : Option String) ≠ some "Time not found" ∧
     (some "Time slot is no longer available" : Option String)
        ≠ some "Time not found") := by
  refine ⟨?_, ?_, ?_, by decide, by decide, by decide⟩
  · intro hmiss
    unfold bookAppointment
    rw [hmiss]
  · intro dd hdd hnm
    unfold bookAppointment
    rw [hdd]
    dsimp only
    rw [if_neg hnm]
  · intro dd hdd hm hmissT
    unfold bookAppointment
    rw [hdd]
    dsimp only
    rw [if_pos hm, hmissT]

/-- A time-slot listing sorted by time of day, position by position (the
claim's ordering requirement). -/
def SortedByTimeOfDay (l : List TimeDoc) : Prop :=
  l.Pairwise (fun a b => timeOfDay a ≤ timeOfDay b)

instance (l : List TimeDoc) : Decidable (SortedByTimeOfDay l) := by
  unfold SortedByTimeOfDay
  infer_instance

/-- C7 counterexample: the catalog read returns the seeded slots in
document-id order, and because the seeded ids are not zero-padded
("1-00_PM" sorts before "8-00_AM") that order is not time-of-day order:
position 0 holds 1:00 PM (minute 780 of the day) while position 12 holds
8:00 AM (minute 480). -/
theorem C7_not_sorted_by_time_of_day :
    ¬ SortedByTimeOfDay (getAllTimes demoSeed).1 ∧
    ((getAllTimes demoSeed).1.get? 0).map timeOfDay = some (13 * 60) ∧
    ((getAllTimes demoSeed).1.get? 12).map timeOfDay = some (8 * 60) := by
  refine ⟨by decide, by decide, by decide⟩

/-- C7 amended: on the seeded catalog the listing is a finite sequence of
all 16 slots in a stable order — ascending document-id (timeId) order, which
is not time-of-day order — and a repeated call returns exactly the same
list (served from the times cache the first call filled). -/
theorem C7_doc_id_order_and_stable :
    (getAllTimes demoSeed).1.Pairwise
      (fun a b => docIdLe a.timeId b.timeId = true) ∧
    (getAllTimes (getAllTimes demoSeed).2).1 = (getAllTimes demoSeed).1 ∧
    (getAllTimes demoSeed).1.length = 16 := by
  refine ⟨by decide, by decide, by decide⟩

instance : IsTotal Appointment (fun a b => a.date ≤ b.date) :=
  ⟨fun a b => le_total a.date b.date⟩

instance : IsTrans Appointment (fun a b => a.date ≤ b.date) :=
  ⟨fun _ _ _ h₁ h₂ => le_trans h₁ h₂⟩

/-- C10: with no authenticated caller the listing is empty; with caller
`uid` it contains exactly the ledger's appointments owned by `uid` whose
status is 'confirmed' (cancelled ones never appear), in ascending order of
the `date` string. -/
theorem C10_confirmed_owned_sorted (s : ServiceState) (uid : String) :
    getUserAppointments s none = [] ∧
    (∀ a, a ∈ getUserAppointments s (some uid) ↔
        (a ∈ s.store.appointments.map (fun p => p.2) ∧ a.userId = uid ∧
         a.status = ApptStatus.confirmed)) ∧
    List.Pairwise (fun a b : Appointment => a.date ≤ b.date)
      (getUserAppointments s (some uid)) := by
  refine ⟨rfl, ?_, ?_⟩
  · intro a
    unfold getUserAppointments
    dsimp only
    constructor
    · intro ha
      have ha1 := (List.perm_insertionSort _ _).mem_iff.mp ha
      rw [List.mem_filter] at ha1
      obtain ⟨ha2, hstat⟩ := ha1
      rw [List.mem_filter] at ha2
      obtain ⟨ha3, huser⟩ := ha2
      have hmem : a ∈ s.store.appointments.map (fun p => p.2) := by
        have hp := List.perm_insertionSort
          (fun a b : String × Appointment => docIdLe a.1 b.1 = true)
          s.store.appointments
        exact ((hp.map (fun p => p.2)).mem_iff).mp ha3
      refine ⟨hmem, ?_, ?_⟩
      · simpa using huser
      · simpa using hstat
    · rintro ⟨hmem, huser, hstat⟩
      apply (List.perm_insertionSort _ _).mem_iff.mpr
      rw [List.mem_filter]
      refine ⟨?_, by simp [hstat]⟩
      rw [List.mem_filter]
      refine ⟨?_, by simp [huser]⟩
      have hp := List.perm_insertionSort
        (fun a b : String × Appointment => docIdLe a.1 b.1 = true)
        s.store.appointments
      exact ((hp.map (fun p => p.2)).mem_iff).mpr hmem
  · unfold getUserAppointments
    dsimp only
    exact List.sorted_insertionSort _ _

end JakoCrud
